import Mathlib

/-!
# Verification of the Unreal-Engine plugin builder core

Shallow embedding of the engine-discovery and build-orchestration subsystem
(`source/backend/engine_finder.py` and `source/backend/plugin_builder.py`).

The operating-system surface (file existence, directory tests, write access,
path normalisation, `os.path.dirname`) is abstracted as a record of functions
`FSEnv`; the repository's own logic is translated function by function on top
of it.  Paths produced by `os.path.join` are modelled with a fixed `/`
separator; the structural claims proved here do not depend on the separator
character.  The builder is modelled without a localisation manager
(`self.localization is None` in every constructor call path modelled here),
so every log message takes the source's default-string branch.
-/

namespace UEPB

/-- Abstraction of the operating-system facilities the backend calls into:
`os.path.exists`, `os.path.isdir`, `os.access(_, W_OK)`, `os.path.normpath`,
`os.path.dirname`, and whether `os.makedirs` succeeds for a given directory. -/
structure FSEnv where
  pathExists : String → Bool
  isDir : String → Bool
  accessW : String → Bool
  normpath : String → String
  dirname : String → String
  makedirsOk : String → Bool
  makedirsErr : String → String

/-- `os.path.join base p1 p2 ...`, with a fixed separator. -/
def pathJoin (base : String) (parts : List String) : String :=
  parts.foldl (fun a p => a ++ "/" ++ p) base

/-- `EngineFinder.is_valid_engine_path` (engine_finder.py, lines 51-79):
requires `Engine/Build/BatchFiles/RunUAT.bat` to exist, at least one of the
two editor executables to exist, and the three key directories to exist. -/
def is_valid_engine_path (env : FSEnv) (engine_path : String) : Bool :=
  let uat_path := pathJoin engine_path ["Engine", "Build", "BatchFiles", "RunUAT.bat"]
  let ue_editor_path := pathJoin engine_path ["Engine", "Binaries", "Win64", "UnrealEditor.exe"]
  let ue4_editor_path := pathJoin engine_path ["Engine", "Binaries", "Win64", "UE4Editor.exe"]
  if !(env.pathExists uat_path) then
    false
  else
    let has_editor := env.pathExists ue_editor_path || env.pathExists ue4_editor_path
    let required_dirs := [
      pathJoin engine_path ["Engine", "Content"],
      pathJoin engine_path ["Engine", "Plugins"],
      pathJoin engine_path ["Engine", "Source"]]
    let dirs_exist := required_dirs.all env.isDir
    has_editor && dirs_exist

/-- C1: for every installation path `P`, `is_valid_engine_path P` returns true
iff all five structural conditions hold: the packaging-tool entry script
`Engine/Build/BatchFiles/RunUAT.bat` exists, at least one of the two editor
executables `Engine/Binaries/Win64/UnrealEditor.exe` or
`Engine/Binaries/Win64/UE4Editor.exe` exists, and the three directories
`Engine/Content`, `Engine/Plugins`, `Engine/Source` all exist; the check is
purely structural (existence checks only). -/
theorem is_valid_engine_path_iff (env : FSEnv) (P : String) :
    is_valid_engine_path env P = true ↔
      (env.pathExists (pathJoin P ["Engine", "Build", "BatchFiles", "RunUAT.bat"]) = true ∧
       (env.pathExists (pathJoin P ["Engine", "Binaries", "Win64", "UnrealEditor.exe"]) = true ∨
        env.pathExists (pathJoin P ["Engine", "Binaries", "Win64", "UE4Editor.exe"]) = true) ∧
       env.isDir (pathJoin P ["Engine", "Content"]) = true ∧
       env.isDir (pathJoin P ["Engine", "Plugins"]) = true ∧
       env.isDir (pathJoin P ["Engine", "Source"]) = true) := by
  simp only [is_valid_engine_path, List.all_cons, List.all_nil, Bool.and_true]
  cases h : env.pathExists (pathJoin P ["Engine", "Build", "BatchFiles", "RunUAT.bat"]) <;>
    simp [h, Bool.and_assoc, and_assoc]

/-! ## Build orchestrator: command construction (plugin_builder.py) -/

/-- A Python value that can appear in the `additional_params` option map.
The GUI (`advanced_options_dialog.py`) stores only `True` booleans and
strings; `False`, `None` and `""` are the falsy values the source's encoding
loop filters out, so the closed domain is booleans, strings and `None`. -/
inductive PValue where
  | pyBool (b : Bool)
  | pyStr (s : String)
  | pyNone
  deriving DecidableEq, Repr

/-- Python `str(value)` on an option value. -/
def pvalueStr : PValue → String
  | .pyBool true => "True"
  | .pyBool false => "False"
  | .pyStr s => s
  | .pyNone => "None"

/-- The fields of a `PluginBuilder` instance that command construction reads
(`self.source_plugin_path`, `self.output_folder`, `self.target_engine_path`,
`self.additional_params`); `None` is `Option.none`. -/
structure BuilderFields where
  source_plugin_path : Option String
  output_folder : Option String
  target_engine_path : Option String
  additional_params : List (String × PValue)

/-- Python truthiness test `not x` on an `Optional[str]`: falsy iff `None`
or the empty string. -/
def optFalsy : Option String → Bool
  | Option.none => true
  | some s => s == ""

/-- The option-encoding loop of `PluginBuilder.get_build_command`
(plugin_builder.py, lines 100-106): `value is True` appends the bare flag;
`value not in (False, None, "")` appends the flag and `str(value)`;
otherwise nothing is appended. -/
def buildParamArgs : List (String × PValue) → List String
  | [] => []
  | (param, value) :: rest =>
    (if value = PValue.pyBool true then
      ["-" ++ param]
    else if value = PValue.pyBool false ∨ value = PValue.pyNone ∨ value = PValue.pyStr "" then
      []
    else
      ["-" ++ param, pvalueStr value]) ++ buildParamArgs rest

/-- `PluginBuilder.get_build_command` (plugin_builder.py, lines 66-107). -/
def get_build_command (env : FSEnv) (b : BuilderFields) : Option (List String) :=
  if optFalsy b.source_plugin_path || optFalsy b.output_folder ||
      optFalsy b.target_engine_path then
    Option.none
  else
    let uat_path := env.normpath
      (pathJoin (b.target_engine_path.getD "") ["Engine", "Build", "BatchFiles", "RunUAT.bat"])
    if !(env.pathExists uat_path) then
      Option.none
    else
      let source_plugin_path := env.normpath (b.source_plugin_path.getD "")
      let output_folder := env.normpath (b.output_folder.getD "")
      some ([uat_path, "BuildPlugin", "-plugin", source_plugin_path,
             "-package", output_folder] ++ buildParamArgs b.additional_params)

/-- Claim-side statement of the per-option encoding, written key by key. -/
def optionArgs (kv : String × PValue) : List String :=
  if kv.2 = PValue.pyBool true then ["-" ++ kv.1]
  else if kv.2 = PValue.pyBool false ∨ kv.2 = PValue.pyNone ∨ kv.2 = PValue.pyStr "" then []
  else ["-" ++ kv.1, pvalueStr kv.2]

theorem buildParamArgs_eq_flatMap (ps : List (String × PValue)) :
    buildParamArgs ps = ps.flatMap optionArgs := by
  induction ps with
  | nil => rfl
  | cons kv rest ih =>
    cases kv with
    | mk param value => simp [buildParamArgs, optionArgs, List.flatMap, ih]

/-- C2: whenever the three path fields are set (non-`None`, non-empty) and
the packaging-tool entry script exists, `get_build_command` produces the
fixed six leading arguments `[uatPath, "BuildPlugin", "-plugin",
normalizedDescriptorPath, "-package", normalizedOutputPath]` followed, per
option in insertion order, by: a `true` boolean value yields the single bare
flag `-Key`; a value other than `true`, `false`, `None` and `""` yields the
two arguments `-Key` and the value rendered as a string; and a value equal
to `false`, `None` or `""` contributes no argument at all. -/
theorem get_build_command_spec (env : FSEnv) (b : BuilderFields)
    (src out tgt : String)
    (hs : b.source_plugin_path = some src) (hs' : src ≠ "")
    (ho : b.output_folder = some out) (ho' : out ≠ "")
    (ht : b.target_engine_path = some tgt) (ht' : tgt ≠ "")
    (huat : env.pathExists
      (env.normpath (pathJoin tgt ["Engine", "Build", "BatchFiles", "RunUAT.bat"])) = true) :
    get_build_command env b =
      some ([env.normpath (pathJoin tgt ["Engine", "Build", "BatchFiles", "RunUAT.bat"]),
             "BuildPlugin", "-plugin", env.normpath src, "-package", env.normpath out]
            ++ b.additional_params.flatMap optionArgs) := by
  have h1 : optFalsy (some src) = false := by simp [optFalsy, hs']
  have h2 : optFalsy (some out) = false := by simp [optFalsy, ho']
  have h3 : optFalsy (some tgt) = false := by simp [optFalsy, ht']
  simp [get_build_command, hs, ho, ht, h1, h2, h3, huat, buildParamArgs_eq_flatMap]

/-- A permissive environment: every path exists, every directory test and
access test succeeds, `normpath` is the identity. -/
def envAll : FSEnv :=
  ⟨fun _ => true, fun _ => true, fun _ => true, fun s => s, fun _ => "", fun _ => true,
   fun _ => ""⟩

/-- Concrete builder fields exercising all four option-value shapes. -/
def bFieldsW : BuilderFields :=
  { source_plugin_path := some "C:/plugins/Foo/Foo.uplugin"
    output_folder := some "C:/out/Foo_5.3"
    target_engine_path := some "C:/Engines/UE_5.3"
    additional_params :=
      [("Strict", PValue.pyBool true), ("TargetPlatforms", PValue.pyStr "Win64+Linux"),
       ("Foo", PValue.pyBool false), ("Bar", PValue.pyStr ""), ("Baz", PValue.pyNone)] }

theorem get_build_command_spec_witness :
    get_build_command envAll bFieldsW =
      some ["C:/Engines/UE_5.3/Engine/Build/BatchFiles/RunUAT.bat",
            "BuildPlugin", "-plugin", "C:/plugins/Foo/Foo.uplugin",
            "-package", "C:/out/Foo_5.3",
            "-Strict", "-TargetPlatforms", "Win64+Linux"] := by
  have h := get_build_command_spec envAll bFieldsW
    "C:/plugins/Foo/Foo.uplugin" "C:/out/Foo_5.3" "C:/Engines/UE_5.3"
    rfl (by decide) rfl (by decide) rfl (by decide) rfl
  simpa [bFieldsW, envAll, optionArgs, pathJoin] using h

/-! ## Build orchestrator: stdout classification (plugin_builder.py, lines 219-242) -/

/-- An event emitted by the builder: one `self.log` call (which both prints
and emits the `log_message` signal), or one of the three lifecycle/progress
signals of `PluginBuilderSignals`. -/
inductive BEvent where
  | logMsg (msg : String) (logType : String)
  | buildStarted
  | buildFinished (success : Bool) (msg : String)
  | buildProgress (n : Nat)
  deriving DecidableEq, Repr

/-- Python `str.lower()` as exercised by `re.IGNORECASE` on the keyword
alternations of `_process_stdout`: ASCII letters and the Cyrillic letters
(`А`-`Я` and `Ё`) appearing in the localized keywords. -/
def pyToLower (c : Char) : Char :=
  let n := c.toNat
  if 65 ≤ n ∧ n ≤ 90 then Char.ofNat (n + 32)
  else if 0x410 ≤ n ∧ n ≤ 0x42F then Char.ofNat (n + 0x20)
  else if n = 0x401 then Char.ofNat 0x451
  else c

/-- Lower-case an entire string. -/
def pyLower (s : String) : String := String.mk (s.toList.map pyToLower)

/-- `needle` is an initial segment of `haystack`. -/
def leadEq : List Char → List Char → Bool
  | [], _ => true
  | _ :: _, [] => false
  | c :: cs, d :: ds => c == d && leadEq cs ds

/-- `needle` occurs contiguously somewhere in `haystack`. -/
def occursIn (needle : List Char) : List Char → Bool
  | [] => needle.isEmpty
  | c :: rest => leadEq needle (c :: rest) || occursIn needle rest

/-- `re.search(kw1|kw2|..., line, re.IGNORECASE) is not None` for a list of
lower-case literal keywords: some keyword occurs in the lowered line. -/
def kwSearch (kws : List String) (line : String) : Bool :=
  kws.any fun k => occursIn k.toList (pyLower line).toList

def errorKeywords : List String := ["error", "ошибка", "failed"]
def warningKeywords : List String := ["warning", "предупреждение"]
def successKeywords : List String := ["success", "успешно", "completed"]

/-- The severity chain of `_process_stdout` (plugin_builder.py, lines
227-234): ERROR, else WARNING, else SUCCESS, else INFO. -/
def classifyLine (line : String) : String :=
  if kwSearch errorKeywords line then "ERROR"
  else if kwSearch warningKeywords line then "WARNING"
  else if kwSearch successKeywords line then "SUCCESS"
  else "INFO"

/-- Python whitespace for `str.strip()`. -/
def pyIsSpace (c : Char) : Bool :=
  c == ' ' || c == '\t' || c == '\n' || c == '\r' || c == Char.ofNat 11 || c == Char.ofNat 12

/-- Python `str.strip()`. -/
def pyStrip (s : String) : String :=
  String.mk (((s.toList.dropWhile pyIsSpace).reverse.dropWhile pyIsSpace).reverse)

/-- `re.search(r'(\d+)%', line)`: the leftmost run of digits immediately
followed by `%`, returned as the integer value of the digit group.  The
accumulator holds the value of the current digit run, `none` when the
previous character was not a digit. -/
def findProgressAux : List Char → Option Nat → Option Nat
  | [], _ => Option.none
  | c :: rest, run =>
    if c == '%' then
      match run with
      | some v => some v
      | Option.none => findProgressAux rest Option.none
    else if c.isDigit then
      findProgressAux rest (some (10 * run.getD 0 + (c.toNat - 48)))
    else
      findProgressAux rest Option.none

/-- `int(re.search(r'(\d+)%', line).group(1))`, or `none` when no match. -/
def findProgress (line : String) : Option Nat := findProgressAux line.toList Option.none

/-- The body of the `for line in data.splitlines()` loop of
`PluginBuilder._process_stdout` (plugin_builder.py, lines 224-242), for one
raw line: strip, skip empty, emit one classified log event, then emit a
progress event when the `(\d+)%` pattern matches. -/
def processLine (raw : String) : List BEvent :=
  let line := pyStrip raw
  if line == "" then []
  else
    BEvent.logMsg line (classifyLine line) ::
      (match findProgress line with
       | some p => [BEvent.buildProgress p]
       | Option.none => [])

/-- Python `str.splitlines()` restricted to the `\n`, `\r`, `\r\n`
terminators (the ones a console byte stream produces). -/
def splitLinesAux : List Char → List Char → List String
  | [], acc => if acc.isEmpty then [] else [String.mk acc.reverse]
  | '\r' :: '\n' :: rest, acc => String.mk acc.reverse :: splitLinesAux rest []
  | '\r' :: rest, acc => String.mk acc.reverse :: splitLinesAux rest []
  | '\n' :: rest, acc => String.mk acc.reverse :: splitLinesAux rest []
  | c :: rest, acc => splitLinesAux rest (c :: acc)

def splitLines (data : String) : List String := splitLinesAux data.toList []

/-- `PluginBuilder._process_stdout` on one decoded chunk of output. -/
def process_stdout (data : String) : List BEvent :=
  (splitLines data).flatMap processLine

/-- Is this event a log event? -/
def isLog : BEvent → Bool
  | .logMsg _ _ => true
  | _ => false

/-- C3: for every non-empty (after stripping) line of stdout, exactly one log
event is emitted, whose severity is chosen by case-insensitive keyword match
with fixed precedence ERROR > WARNING > SUCCESS > INFO, first match wins; and
a progress event with value `n` is emitted iff the line matches the
`(\d+)%` pattern with integer value `n`. -/
theorem process_stdout_line_spec (raw : String) (h : pyStrip raw ≠ "") :
    ((processLine raw).filter isLog =
        [BEvent.logMsg (pyStrip raw) (classifyLine (pyStrip raw))]) ∧
    (kwSearch errorKeywords (pyStrip raw) = true →
        classifyLine (pyStrip raw) = "ERROR") ∧
    (kwSearch errorKeywords (pyStrip raw) = false →
      kwSearch warningKeywords (pyStrip raw) = true →
        classifyLine (pyStrip raw) = "WARNING") ∧
    (kwSearch errorKeywords (pyStrip raw) = false →
      kwSearch warningKeywords (pyStrip raw) = false →
      kwSearch successKeywords (pyStrip raw) = true →
        classifyLine (pyStrip raw) = "SUCCESS") ∧
    (kwSearch errorKeywords (pyStrip raw) = false →
      kwSearch warningKeywords (pyStrip raw) = false →
      kwSearch successKeywords (pyStrip raw) = false →
        classifyLine (pyStrip raw) = "INFO") ∧
    (∀ n : Nat, BEvent.buildProgress n ∈ processLine raw ↔
        findProgress (pyStrip raw) = some n) := by
  have hne : (pyStrip raw == "") = false := by
    simp [h]
  refine ⟨?_, ?_, ?_, ?_, ?_, ?_⟩
  · cases hp : findProgress (pyStrip raw) <;>
      simp [processLine, hne, hp, isLog]
  · intro h1; simp [classifyLine, h1]
  · intro h1 h2; simp [classifyLine, h1, h2]
  · intro h1 h2 h3; simp [classifyLine, h1, h2, h3]
  · intro h1 h2 h3; simp [classifyLine, h1, h2, h3]
  · intro n
    cases hp : findProgress (pyStrip raw) <;>
      simp [processLine, hne, hp, eq_comm]

/-- Witness: the line `" Build 42% error with warning "` (surrounded by
whitespace) yields exactly one log event with severity ERROR (error beats
warning) and a progress event carrying `42`. -/
theorem process_stdout_line_spec_witness :
    ((processLine " Build 42% error with warning ").filter isLog =
        [BEvent.logMsg "Build 42% error with warning" "ERROR"]) ∧
    BEvent.buildProgress 42 ∈ processLine " Build 42% error with warning " := by
  have h := process_stdout_line_spec " Build 42% error with warning " (by decide)
  refine ⟨?_, ?_⟩
  · have h1 := h.1
    have he : classifyLine (pyStrip " Build 42% error with warning ") = "ERROR" :=
      h.2.1 (by decide)
    rw [he] at h1
    simpa using h1
  · exact ((h.2.2.2.2.2 42).mpr (by decide))

/-! ## Build orchestrator: descriptor extraction (plugin_builder.py, lines 41-64) -/

/-- A parsed JSON value, as returned by `json.load`.  Objects are modelled as
association lists with distinct keys (Python's parser collapses duplicate
keys before the backend ever sees them), `null` is Python `None`. -/
inductive JValue where
  | null
  | jbool (b : Bool)
  | jnum (n : Int)
  | jstr (s : String)
  | jarr (xs : List JValue)
  | jobj (fields : List (String × JValue))

/-- Python `v != ""`: `False` exactly for the empty string, `True` for every
other value (comparison between different types is inequality). -/
def pyNeEmptyStr : JValue → Bool
  | .jstr s => !(s == "")
  | _ => true

/-- Python `iter(v)` as a list of values: lists yield elements, dicts yield
their keys, strings yield one-character strings; other values raise
`TypeError` (`none`). -/
def pyIter : JValue → Option (List JValue)
  | .jarr xs => some xs
  | .jobj fs => some (fs.map fun kv => JValue.jstr kv.1)
  | .jstr s => some (s.toList.map fun c => JValue.jstr (String.mk [c]))
  | _ => Option.none

/-- `m.get("Name")` inside the `Modules` comprehension: a dict yields the
`Name` value (or `None` when absent); anything else raises (`none`). -/
def moduleName : JValue → Option JValue
  | .jobj fs => some ((fs.lookup "Name").getD JValue.null)
  | _ => Option.none

/-- Map `m.get("Name")` over a list of elements, failing as soon as one
element is not a dict. -/
def namesOf : List JValue → Option (List JValue)
  | [] => some []
  | m :: rest =>
    match moduleName m, namesOf rest with
    | some n, some ns => some (n :: ns)
    | _, _ => Option.none

/-- `[m.get("Name") for m in v]`: raises (`none`) when `v` is not iterable or
some element is not a dict. -/
def modulesOf (v : JValue) : Option (List JValue) :=
  (pyIter v).bind namesOf

/-- The `info` dict built by `PluginBuilder.extract_plugin_info`
(plugin_builder.py, lines 49-59).  Raw JSON values are kept as such because
the source stores whatever `plugin_data.get` returns. -/
structure PluginInfo where
  name : JValue
  version : JValue
  description : JValue
  category : JValue
  modules : List JValue
  is_engine_plugin : Bool
  engine_version : JValue
  marketplace_url : JValue
  supported_platforms : JValue

/-- `PluginBuilder.extract_plugin_info` on the parsed descriptor value: any
exception inside the `try` block (non-dict top level, bad `Modules` value)
is caught and turned into `None`. -/
def extract_plugin_info (plugin_data : JValue) : Option PluginInfo :=
  match plugin_data with
  | .jobj fields =>
    match modulesOf ((fields.lookup "Modules").getD (JValue.jarr [])) with
    | Option.none => Option.none
    | some mods =>
      some {
        name := (fields.lookup "FriendlyName").getD (JValue.jstr "Unknown Plugin")
        version := (fields.lookup "Version").getD (JValue.jnum 0)
        description := (fields.lookup "Description").getD (JValue.jstr "")
        category := (fields.lookup "Category").getD (JValue.jstr "")
        modules := mods
        is_engine_plugin := pyNeEmptyStr ((fields.lookup "EngineVersion").getD (JValue.jstr ""))
        engine_version := (fields.lookup "EngineVersion").getD (JValue.jstr "")
        marketplace_url := (fields.lookup "MarketplaceURL").getD (JValue.jstr "")
        supported_platforms := (fields.lookup "SupportedTargetPlatforms").getD (JValue.jarr []) }
  | _ => Option.none

/-- A JSON array all of whose elements are objects. -/
def isObjArray : JValue → Bool
  | .jarr xs => xs.all fun m => match m with | .jobj _ => true | _ => false
  | _ => false

theorem namesOf_isSome (xs : List JValue)
    (h : (xs.all fun m => match m with | .jobj _ => true | _ => false) = true) :
    (namesOf xs).isSome = true := by
  induction xs with
  | nil => rfl
  | cons m rest ih =>
    simp only [List.all_cons, Bool.and_eq_true] at h
    have hr := ih h.2
    rw [Option.isSome_iff_exists] at hr
    obtain ⟨ms, hms⟩ := hr
    cases m with
    | jobj fs => simp [namesOf, moduleName, hms]
    | null => simp at h
    | jbool b => simp at h
    | jnum n => simp at h
    | jstr s => simp at h
    | jarr ys => simp at h

theorem modulesOf_isSome_of_isObjArray (v : JValue) (h : isObjArray v = true) :
    (modulesOf v).isSome = true := by
  cases v with
  | jarr xs =>
    simp only [modulesOf, pyIter, Option.bind_some]
    exact namesOf_isSome xs (by simpa [isObjArray] using h)
  | null => simp [isObjArray] at h
  | jbool b => simp [isObjArray] at h
  | jnum n => simp [isObjArray] at h
  | jstr s => simp [isObjArray] at h
  | jobj fs => simp [isObjArray] at h

/-- C8 counterexample: on the well-formed empty descriptor object the missing
`FriendlyName` key defaults to `"Unknown Plugin"`, not to the empty string;
and on the well-formed object `{"Modules": 5}` extraction fails with `None`
rather than succeeding. -/
theorem extract_plugin_info_counterexample :
    (extract_plugin_info (JValue.jobj [])).map PluginInfo.name =
        some (JValue.jstr "Unknown Plugin") ∧
    JValue.jstr "Unknown Plugin" ≠ JValue.jstr "" ∧
    extract_plugin_info (JValue.jobj [("Modules", JValue.jnum 5)]) = Option.none := by
  refine ⟨rfl, ?_, rfl⟩
  intro h
  exact absurd (JValue.jstr.inj h) (by decide)

/-- C8 (amended): for every well-formed descriptor JSON object whose
`Modules` value, when present, is an array of objects, extraction succeeds;
missing recognized keys default to fixed values — `"Unknown Plugin"` for the
friendly name, the empty string for description, category, engine version and
marketplace URL, `0` for the version, empty lists for modules and supported
platforms — and the derived `is_engine_plugin` field is true iff the
`EngineVersion` value (defaulted to `""`) differs from the empty string. -/
theorem extract_plugin_info_spec (fields : List (String × JValue))
    (hm : isObjArray ((fields.lookup "Modules").getD (JValue.jarr [])) = true) :
    (extract_plugin_info (JValue.jobj fields)).isSome = true ∧
    (fields.lookup "FriendlyName" = Option.none →
      (extract_plugin_info (JValue.jobj fields)).map PluginInfo.name =
        some (JValue.jstr "Unknown Plugin")) ∧
    (fields.lookup "Version" = Option.none →
      (extract_plugin_info (JValue.jobj fields)).map PluginInfo.version =
        some (JValue.jnum 0)) ∧
    (fields.lookup "Description" = Option.none →
      (extract_plugin_info (JValue.jobj fields)).map PluginInfo.description =
        some (JValue.jstr "")) ∧
    (fields.lookup "Category" = Option.none →
      (extract_plugin_info (JValue.jobj fields)).map PluginInfo.category =
        some (JValue.jstr "")) ∧
    (fields.lookup "Modules" = Option.none →
      (extract_plugin_info (JValue.jobj fields)).map PluginInfo.modules = some []) ∧
    (fields.lookup "EngineVersion" = Option.none →
      (extract_plugin_info (JValue.jobj fields)).map PluginInfo.engine_version =
        some (JValue.jstr "")) ∧
    (fields.lookup "MarketplaceURL" = Option.none →
      (extract_plugin_info (JValue.jobj fields)).map PluginInfo.marketplace_url =
        some (JValue.jstr "")) ∧
    (fields.lookup "SupportedTargetPlatforms" = Option.none →
      (extract_plugin_info (JValue.jobj fields)).map PluginInfo.supported_platforms =
        some (JValue.jarr [])) ∧
    ((extract_plugin_info (JValue.jobj fields)).map PluginInfo.is_engine_plugin =
        some true ↔
      (fields.lookup "EngineVersion").getD (JValue.jstr "") ≠ JValue.jstr "") := by
  have hs := modulesOf_isSome_of_isObjArray _ hm
  rw [Option.isSome_iff_exists] at hs
  obtain ⟨mods, hmods⟩ := hs
  have hx : extract_plugin_info (JValue.jobj fields) =
      some {
        name := (fields.lookup "FriendlyName").getD (JValue.jstr "Unknown Plugin")
        version := (fields.lookup "Version").getD (JValue.jnum 0)
        description := (fields.lookup "Description").getD (JValue.jstr "")
        category := (fields.lookup "Category").getD (JValue.jstr "")
        modules := mods
        is_engine_plugin := pyNeEmptyStr ((fields.lookup "EngineVersion").getD (JValue.jstr ""))
        engine_version := (fields.lookup "EngineVersion").getD (JValue.jstr "")
        marketplace_url := (fields.lookup "MarketplaceURL").getD (JValue.jstr "")
        supported_platforms := (fields.lookup "SupportedTargetPlatforms").getD (JValue.jarr []) } := by
    simp [extract_plugin_info, hmods]
  refine ⟨by simp [hx], ?_, ?_, ?_, ?_, ?_, ?_, ?_, ?_, ?_⟩
  · intro h0; simp [hx, h0]
  · intro h0; simp [hx, h0]
  · intro h0; simp [hx, h0]
  · intro h0; simp [hx, h0]
  · intro h0
    rw [h0] at hmods
    simp only [Option.getD_none, modulesOf, pyIter, Option.bind_some, namesOf] at hmods
    cases hmods
    simp [hx]
  · intro h0; simp [hx, h0]
  · intro h0; simp [hx, h0]
  · intro h0; simp [hx, h0]
  · simp only [hx, Option.map_some]
    constructor
    · intro h0 hcon
      have := Option.some.inj h0
      rw [hcon] at this
      simp [pyNeEmptyStr] at this
    · intro h0
      cases hev : (fields.lookup "EngineVersion").getD (JValue.jstr "") with
      | jstr s =>
        rw [hev] at h0
        have hsne : s ≠ "" := fun hcon => h0 (by rw [hcon])
        simp [pyNeEmptyStr, hev, hsne]
      | null => simp [pyNeEmptyStr, hev]
      | jbool b => simp [pyNeEmptyStr, hev]
      | jnum n => simp [pyNeEmptyStr, hev]
      | jarr xs => simp [pyNeEmptyStr, hev]
      | jobj fs => simp [pyNeEmptyStr, hev]

/-- Witness: the amended C8 theorem applied to the empty descriptor object:
every field takes its default and the plugin is not an engine plugin. -/
theorem extract_plugin_info_spec_witness :
    (extract_plugin_info (JValue.jobj [])).isSome = true ∧
    (extract_plugin_info (JValue.jobj [])).map PluginInfo.version =
      some (JValue.jnum 0) ∧
    (extract_plugin_info (JValue.jobj [])).map PluginInfo.modules = some [] := by
  have h := extract_plugin_info_spec [] rfl
  exact ⟨h.1, h.2.2.1 rfl, h.2.2.2.2.2.1 rfl⟩

/-! ## Build orchestrator: process lifecycle (plugin_builder.py, lines 139-321)

The builder's mutable state and the external processes it spawns are modelled
as an explicit transition system.  Each `QProcess` ever created by
`build_plugin` is tracked with its OS-level `running` flag and whether its
`finished` signal has already been `delivered` by the event loop; the field
`current` is the index `self.process` refers to (`none` = `None`).  The
handlers connected at creation (`readyReadStandardOutput`, `finished`) are
never disconnected anywhere in the source, so a dead, undelivered process can
always have its `finished` signal delivered. -/

/-- One spawned external packaging process. -/
structure ProcSt where
  running : Bool
  delivered : Bool
  deriving DecidableEq, Repr

/-- The mutable state of a `PluginBuilder` instance plus the OS processes it
has spawned. -/
structure BuilderState where
  fields : BuilderFields
  procs : List ProcSt
  current : Option Nat

/-- `PluginBuilder.__init__`: no process, all paths `None`, empty options. -/
def builderInit : BuilderState :=
  ⟨⟨Option.none, Option.none, Option.none, []⟩, [], Option.none⟩

/-- The log events emitted by the body of `get_build_command` itself
(plugin_builder.py, lines 70-84). -/
def get_build_command_log (env : FSEnv) (b : BuilderFields) : List BEvent :=
  if optFalsy b.source_plugin_path || optFalsy b.output_folder ||
      optFalsy b.target_engine_path then
    [.logMsg "Not all required parameters are set for building" "ERROR"]
  else
    let uat_path := env.normpath
      (pathJoin (b.target_engine_path.getD "") ["Engine", "Build", "BatchFiles", "RunUAT.bat"])
    if !(env.pathExists uat_path) then
      [.logMsg ("RunUAT.bat file not found at path: " ++ uat_path) "ERROR"]
    else []

/-- `value.replace("\\", "/")` (a single-character replacement). -/
def replaceBackslashes (s : String) : String :=
  String.mk (s.toList.map fun c => if c == '\\' then '/' else c)

/-- The pair-formatting loop of `get_command_string` (plugin_builder.py,
lines 121-135): starting at index 2, arguments are consumed two at a time as
`param`/`value`; a value whose parent directory exists is quoted and rendered
with forward slashes, otherwise rendered as bare `param=value`; a trailing
lone argument is kept as is. -/
def fmtPairs (env : FSEnv) : List String → List String
  | p :: v :: rest =>
    (if env.pathExists (env.dirname v) then
      p ++ "=\"" ++ replaceBackslashes v ++ "\""
    else
      p ++ "=" ++ v) :: fmtPairs env rest
  | [p] => [p]
  | [] => []

/-- `PluginBuilder.get_command_string` (plugin_builder.py, lines 109-137).
The command produced by `get_build_command` always has at least two
elements, so the fallback branch is unreachable. -/
def get_command_string (env : FSEnv) (b : BuilderFields) : String :=
  match get_build_command env b with
  | Option.none => ""
  | some (c0 :: c1 :: rest) => String.intercalate " " (c0 :: c1 :: fmtPairs env rest)
  | some _ => ""

/-- `PluginBuilder.build_plugin` (plugin_builder.py, lines 139-217): the four
fields are overwritten first; then the descriptor-existence, output-parent
writability, `makedirs` and command-constructibility preconditions are
checked in order, each failure logging and returning `False`; on success the
command string is logged, `build_started` is emitted, and a new `QProcess`
is created (its handlers connected) and started. -/
def build_plugin (env : FSEnv) (st : BuilderState)
    (src out tgt : String) (params : List (String × PValue)) :
    Bool × BuilderState × List BEvent :=
  let st := { st with fields := ⟨some src, some out, some tgt, params⟩ }
  if !(env.pathExists src) then
    (false, st, [.logMsg ("Plugin file not found: " ++ src) "ERROR"])
  else if !(env.accessW (env.dirname out)) then
    (false, st, [.logMsg ("No permission to create directory in: " ++ env.dirname out) "ERROR"])
  else if !(env.makedirsOk out) then
    (false, st, [.logMsg ("Failed to create output directory: " ++ env.makedirsErr out) "ERROR"])
  else
    match get_build_command env st.fields with
    | Option.none => (false, st, get_build_command_log env st.fields)
    | some _ =>
      (true,
       { st with procs := st.procs ++ [⟨true, false⟩], current := some st.procs.length },
       [.logMsg ("Build command: " ++ get_command_string env st.fields) "INFO",
        .buildStarted])

/-- `self.process and self.process.state() != QProcess.NotRunning`: the
handle refers to a process that is still running. -/
def procActive (st : BuilderState) : Bool :=
  match st.current with
  | some i => (st.procs[i]?.getD ⟨false, false⟩).running
  | Option.none => false

/-- `PluginBuilder.cancel_build` (plugin_builder.py, lines 271-321): returns
`False` when idle; otherwise kills the current process tree (`taskkill /F
/PID <pid> /T` plus the build-tool images), waits, best-effort-removes the
output folder (`ignore_errors=True`, so the success log is emitted whenever
the folder existed), logs the fixed cancellation message and emits
`build_finished(False, ...)`.  The handle and the `finished` connection are
left in place. -/
def cancel_build (env : FSEnv) (st : BuilderState) : Bool × BuilderState × List BEvent :=
  match st.current with
  | Option.none => (false, st, [])
  | some i =>
    if !(st.procs[i]?.getD ⟨false, false⟩).running then
      (false, st, [])
    else
      let st' := { st with
        procs := st.procs.set i { st.procs[i]?.getD ⟨false, false⟩ with running := false } }
      let cleanupEvents :=
        if !(optFalsy st'.fields.output_folder) &&
            env.pathExists (st'.fields.output_folder.getD "") then
          [BEvent.logMsg ("Successfully removed folder: " ++ st'.fields.output_folder.getD "")
            "SUCCESS"]
        else []
      (true, st',
       cleanupEvents ++
        [BEvent.logMsg "Plugin build cancelled by user" "WARNING",
         BEvent.buildFinished false "Plugin build cancelled by user"])

/-- `PluginBuilder._process_finished` (plugin_builder.py, lines 254-269):
exit code `0` emits the success pair, anything else the failure pair carrying
the code.  It does not touch the process handle. -/
def process_finished (exit_code : Int) : List BEvent :=
  if exit_code = 0 then
    [.logMsg "Plugin build completed successfully" "SUCCESS",
     .buildFinished true "Plugin build completed successfully"]
  else
    [.logMsg ("Plugin build failed with error (code: " ++ toString exit_code ++ ")") "ERROR",
     .buildFinished false ("Plugin build failed with error (code: " ++ toString exit_code ++ ")")]

/-- An action on the orchestrator: a caller request (`build`, `cancel`) or an
environment step (a process exiting on its own; the Qt event loop delivering
a dead process's `finished` signal to the still-connected handler). -/
inductive BAction where
  | build (src out tgt : String) (params : List (String × PValue))
  | cancel
  | die (i : Nat)
  | finishedSignal (i : Nat) (code : Int)

/-- One transition; `none` means the environment action is not enabled. -/
def stepB (env : FSEnv) (st : BuilderState) : BAction → Option (BuilderState × List BEvent)
  | .build src out tgt params =>
    let r := build_plugin env st src out tgt params
    some (r.2.1, r.2.2)
  | .cancel =>
    let r := cancel_build env st
    some (r.2.1, r.2.2)
  | .die i =>
    let p := st.procs[i]?.getD ⟨false, false⟩
    if p.running then
      some ({ st with procs := st.procs.set i { p with running := false } }, [])
    else Option.none
  | .finishedSignal i code =>
    let p := st.procs[i]?.getD ⟨false, false⟩
    if i < st.procs.length && !p.running && !p.delivered then
      some ({ st with procs := st.procs.set i { p with delivered := true } },
            process_finished code)
    else Option.none

/-- Run a list of actions, concatenating the emitted events. -/
def runTrace (env : FSEnv) (st : BuilderState) : List BAction → Option (BuilderState × List BEvent)
  | [] => some (st, [])
  | a :: rest =>
    match stepB env st a with
    | Option.none => Option.none
    | some (st', evs) =>
      match runTrace env st' rest with
      | Option.none => Option.none
      | some (st'', evs') => some (st'', evs ++ evs')

/-- Number of spawned processes still running. -/
def countRunning (st : BuilderState) : Nat :=
  (st.procs.filter (fun p => p.running)).length

/-- C9: if `cancel_build` is called when no build is active (no process was
ever started, or the previously started process is no longer running), it
returns `false` immediately, leaves the state unchanged and emits no log,
progress or lifecycle events. -/
theorem cancel_build_idle (env : FSEnv) (st : BuilderState)
    (h : procActive st = false) :
    cancel_build env st = (false, st, []) := by
  unfold procActive at h
  unfold cancel_build
  cases hc : st.current with
  | none => rfl
  | some i =>
    rw [hc] at h
    have h2 : (st.procs[i]?.getD ⟨false, false⟩).running = false := h
    simp [h2]

/-- Witness: cancelling on a freshly constructed builder is a silent no-op. -/
theorem cancel_build_idle_witness :
    cancel_build envAll builderInit = (false, builderInit, []) :=
  cancel_build_idle envAll builderInit rfl

/-- C10: every call to `build_plugin` overwrites the stored
`source_plugin_path`, `output_folder`, `target_engine_path` and
`additional_params` fields with its arguments before checking any
precondition, so the posterior fields hold the new arguments in every
outcome — in particular in each of the failure modes that return `false`. -/
theorem build_plugin_overwrites_fields (env : FSEnv) (st : BuilderState)
    (src out tgt : String) (params : List (String × PValue)) :
    (build_plugin env st src out tgt params).2.1.fields =
      ⟨some src, some out, some tgt, params⟩ := by
  unfold build_plugin
  dsimp only
  repeat' split
  all_goals rfl

/-- C7 counterexample: two back-to-back successful `build_plugin` calls leave
two spawned processes running at once — the orchestrator does not enforce
single-slot ownership. -/
theorem build_twice_counterexample :
    (runTrace envAll builderInit
      [BAction.build "a" "b" "c" [], BAction.build "a" "b" "c" []]).map
        (fun r => countRunning r.1) = some 2 := by
  decide

/-- C7 (amended): the orchestrator keeps a single process handle but does not
guard launches: the outcome of `build_plugin` depends only on the
precondition checks, never on whether a build is already running; a
successful launch appends a fresh running process and repoints the handle
(orphaning, not releasing, any earlier process); and neither cancellation nor
delivery of a `finished` signal clears the handle. -/
theorem build_plugin_no_single_slot_guard (env : FSEnv) (st : BuilderState)
    (src out tgt : String) (params : List (String × PValue)) :
    ((build_plugin env st src out tgt params).1 =
      (env.pathExists src && env.accessW (env.dirname out) && env.makedirsOk out &&
       (get_build_command env ⟨some src, some out, some tgt, params⟩).isSome)) ∧
    ((build_plugin env st src out tgt params).2.1.procs =
      st.procs ++ (if (build_plugin env st src out tgt params).1 then [⟨true, false⟩] else [])) ∧
    ((build_plugin env st src out tgt params).2.1.current =
      (if (build_plugin env st src out tgt params).1 then some st.procs.length
       else st.current)) ∧
    ((cancel_build env st).2.1.current = st.current) ∧
    (∀ (i : Nat) (code : Int),
      (stepB env st (BAction.finishedSignal i code)).map (fun r => r.1.current) =
      (stepB env st (BAction.finishedSignal i code)).map (fun _ => st.current)) := by
  refine ⟨?_, ?_, ?_, ?_, ?_⟩
  · unfold build_plugin
    cases h1 : env.pathExists src <;>
      cases h2 : env.accessW (env.dirname out) <;>
        cases h3 : env.makedirsOk out <;>
          simp [h1, h2, h3] <;>
            cases hg : get_build_command env ⟨some src, some out, some tgt, params⟩ <;>
              simp [hg]
  · unfold build_plugin
    dsimp only
    repeat' split
    all_goals simp_all
  · unfold build_plugin
    dsimp only
    repeat' split
    all_goals simp_all
  · unfold cancel_build
    dsimp only
    repeat' split
    all_goals rfl
  · intro i code
    unfold stepB
    dsimp only
    repeat' split
    all_goals rfl

/-- C4 counterexample: launch a build, cancel it, then let the event loop
deliver the killed process's `finished` signal (the handler is still
connected and the handle still set): the exit-code-based failure event is
emitted after the cancellation event, so the cancellation event is not the
last/only terminal event of the build. -/
theorem cancel_then_completion_counterexample :
    (runTrace envAll builderInit
      [BAction.build "a" "b" "c" [], BAction.cancel, BAction.finishedSignal 0 1]).map
        (fun r => r.2) =
      some [BEvent.logMsg
              "Build command: c/Engine/Build/BatchFiles/RunUAT.bat BuildPlugin -plugin=\"a\" -package=\"b\""
              "INFO",
            BEvent.buildStarted,
            BEvent.logMsg "Successfully removed folder: b" "SUCCESS",
            BEvent.logMsg "Plugin build cancelled by user" "WARNING",
            BEvent.buildFinished false "Plugin build cancelled by user",
            BEvent.logMsg "Plugin build failed with error (code: 1)" "ERROR",
            BEvent.buildFinished false "Plugin build failed with error (code: 1)"] := by
  decide

/-- C4 (amended): `cancel_build` on a running build returns `true` and its
last emitted event is the fixed-message cancellation event; but it leaves the
`finished` handler connected and the handle set, so the finished signal of
the killed process is still deliverable afterwards, and its delivery emits
the exit-code-based normal-completion failure event after the cancellation
event. -/
theorem cancel_does_not_preempt_completion (env : FSEnv) (st : BuilderState)
    (i : Nat) (code : Int)
    (hc : st.current = some i)
    (hr : (st.procs[i]?.getD ⟨false, false⟩).running = true)
    (hd : (st.procs[i]?.getD ⟨false, false⟩).delivered = false)
    (hcode : code ≠ 0) :
    (cancel_build env st).1 = true ∧
    ((cancel_build env st).2.2).getLast? =
      some (BEvent.buildFinished false "Plugin build cancelled by user") ∧
    ((stepB env (cancel_build env st).2.1 (BAction.finishedSignal i code)).map
        (fun r => r.2)) =
      some [BEvent.logMsg
              ("Plugin build failed with error (code: " ++ toString code ++ ")") "ERROR",
            BEvent.buildFinished false
              ("Plugin build failed with error (code: " ++ toString code ++ ")")] := by
  have hlt : i < st.procs.length := by
    by_contra hge
    rw [List.getElem?_eq_none (Nat.le_of_not_lt hge)] at hr
    simp at hr
  have hcb : cancel_build env st =
      (true,
       { st with
         procs := st.procs.set i ({ st.procs[i]?.getD ⟨false, false⟩ with running := false }) },
       (if !(optFalsy st.fields.output_folder) &&
            env.pathExists (st.fields.output_folder.getD "") then
          [BEvent.logMsg ("Successfully removed folder: " ++ st.fields.output_folder.getD "")
            "SUCCESS"]
        else []) ++
        [BEvent.logMsg "Plugin build cancelled by user" "WARNING",
         BEvent.buildFinished false "Plugin build cancelled by user"]) := by
    unfold cancel_build
    rw [hc]
    simp [hr]
  refine ⟨by rw [hcb], ?_, ?_⟩
  · rw [hcb]
    simp [List.getLast?_append]
  · rw [hcb]
    have hset : ((st.procs.set i
        ({ st.procs[i]?.getD ⟨false, false⟩ with running := false }))[i]?) =
        some ({ st.procs[i]?.getD ⟨false, false⟩ with running := false }) :=
      List.getElem?_set_self hlt
    unfold stepB
    simp only [hset, List.length_set, Option.getD_some]
    rw [if_pos]
    · simp [process_finished, hcode]
    · simp only [List.getElem?_eq_getElem hlt, Option.getD_some] at hd
      simp [hlt, hd]

/-- Witness for the amended C4 theorem: the concrete post-launch state of a
single running build. -/
theorem cancel_does_not_preempt_completion_witness :
    (cancel_build envAll
      ⟨⟨some "a", some "b", some "c", []⟩, [⟨true, false⟩], some 0⟩).1 = true ∧
    ((stepB envAll
        (cancel_build envAll
          ⟨⟨some "a", some "b", some "c", []⟩, [⟨true, false⟩], some 0⟩).2.1
        (BAction.finishedSignal 0 1)).map (fun r => r.2)) =
      some [BEvent.logMsg "Plugin build failed with error (code: 1)" "ERROR",
            BEvent.buildFinished false "Plugin build failed with error (code: 1)"] := by
  have h := cancel_does_not_preempt_completion envAll
    ⟨⟨some "a", some "b", some "c", []⟩, [⟨true, false⟩], some 0⟩ 0 1
    rfl rfl rfl (by decide)
  exact ⟨h.1, h.2.2⟩

/-! ## Discovery engine (engine_finder.py)

The three candidate sources are abstracted as environment inputs: the
`InstalledDirectory` values readable from the two registry roots (in
enumeration order), the values of `os.environ`, and `os.listdir`.  The
config-store file is tracked structurally: `none` when absent, otherwise the
version-to-path mapping stored under the `"unreal_engines"` key (the
`json.dump`/`json.load` round trip through that wrapper object is the
identity on the mapping). -/

/-- Python `repr` of a JSON value (used only through `str` on containers). -/
def pyRepr : JValue → String
  | .null => "None"
  | .jbool true => "True"
  | .jbool false => "False"
  | .jnum n => toString n
  | .jstr s => String.mk (Char.ofNat 39 :: s.toList ++ [Char.ofNat 39])
  | .jarr xs => "[" ++ String.intercalate ", " (xs.attach.map fun x => pyRepr x.1) ++ "]"
  | .jobj fs =>
    "\x7b" ++
      String.intercalate ", "
        (fs.attach.map fun kv =>
          String.mk (Char.ofNat 39 :: kv.1.1.toList ++ [Char.ofNat 39]) ++ ": " ++ pyRepr kv.1.2) ++
      "\x7d"
decreasing_by
  · have h := List.sizeOf_lt_of_mem x.2
    simp only [JValue.jarr.sizeOf_spec]
    omega
  · obtain ⟨⟨k, v⟩, hkv⟩ := kv
    have h := List.sizeOf_lt_of_mem hkv
    simp only [JValue.jobj.sizeOf_spec, Prod.mk.sizeOf_spec] at h ⊢
    omega

/-- Python `str` of a JSON value, as used by f-string interpolation. -/
def pyStr : JValue → String
  | .jstr s => s
  | v => pyRepr v

/-- The tail of the version pattern after `UE` and the optional underscore:
a maximal digit run, a literal dot, a maximal digit run (the regex group). -/
def matchVersionTail (cs : List Char) : Option String :=
  let d1 := cs.takeWhile Char.isDigit
  if d1.isEmpty then Option.none
  else
    match cs.dropWhile Char.isDigit with
    | '.' :: rest2 =>
      let d2 := rest2.takeWhile Char.isDigit
      if d2.isEmpty then Option.none
      else some (String.mk d1 ++ "." ++ String.mk d2)
    | _ => Option.none

/-- `re.search(r'UE_?(\d+\.\d+)', path)`: leftmost occurrence of `UE`,
optional underscore, then the dotted version group. -/
def searchUEVersion (cs : List Char) : Option String :=
  match cs with
  | 'U' :: 'E' :: rest =>
    let tail :=
      match rest with
      | '_' :: rest2 => matchVersionTail rest2
      | _ => matchVersionTail rest
    (match tail with
     | some v => some v
     | Option.none => searchUEVersion ('E' :: rest))
  | _ :: rest => searchUEVersion rest
  | [] => Option.none
termination_by cs.length

/-- The operating-system inputs of the discovery engine: the shared
filesystem surface, the registry values, the process environment values,
directory listings, the expanded home directory, and JSON file reads. -/
structure FinderEnv where
  fs : FSEnv
  registryInstallDirs : List String
  envVarValues : List String
  listdir : String → List String
  homeDir : String
  readJson : String → Option JValue

/-- `EngineFinder.STANDARD_PATHS` (engine_finder.py, lines 26-31). -/
def standardPaths (env : FinderEnv) : List String :=
  ["C:/Program Files/Epic Games", "C:/Epic Games", env.homeDir ++ "/Epic Games",
   "D:/Epic Games"]

/-- `EngineFinder.POSSIBLE_ENGINE_NAMES` (engine_finder.py, line 36). -/
def possibleEngineNames : List String := ["Unreal", "UE_", "UE5", "UE4"]

/-- The mutable state of an `EngineFinder` instance plus the config file it
owns. -/
structure FinderState where
  configFileName : String
  configFile : Option (List (String × String))
  found_engines : List (String × String)

/-- `EngineFinder.find_unreal_in_registry` (engine_finder.py, lines 81-118):
every readable `InstalledDirectory` value that exists and validates. -/
def find_unreal_in_registry (env : FinderEnv) : List String :=
  env.registryInstallDirs.filter fun p =>
    env.fs.pathExists p && is_valid_engine_path env.fs p

/-- `EngineFinder.find_unreal_in_env_vars` (engine_finder.py, lines 120-144):
every environment value containing a known product-name substring that
exists and validates. -/
def find_unreal_in_env_vars (env : FinderEnv) : List String :=
  env.envVarValues.filter fun v =>
    (possibleEngineNames.any fun n => occursIn n.toList v.toList) &&
      (env.fs.pathExists v && is_valid_engine_path env.fs v)

/-- `EngineFinder.find_unreal_in_standard_paths` (engine_finder.py, lines
146-174): every immediate subdirectory of an existing standard root that
validates. -/
def find_unreal_in_standard_paths (env : FinderEnv) : List String :=
  (standardPaths env).flatMap fun base =>
    if env.fs.pathExists base then
      ((env.listdir base).map fun sub => pathJoin base [sub]).filter
        (is_valid_engine_path env.fs)
    else []

/-- `EngineFinder.extract_version_from_path` (engine_finder.py, lines
176-203): root normalisation, then the path pattern, then the
`Build.version` metadata file (a non-object or unreadable file raises and
falls through to `None`). -/
def extract_version_from_path (env : FinderEnv) (engine_path : String) : Option String :=
  let engine_path :=
    if !(env.fs.pathExists (pathJoin engine_path ["Engine"])) &&
        occursIn "Engine".toList engine_path.toList then
      env.fs.dirname (env.fs.dirname engine_path)
    else engine_path
  match searchUEVersion engine_path.toList with
  | some v => some v
  | Option.none =>
    let version_file := pathJoin engine_path ["Engine", "Build", "Build.version"]
    if env.fs.pathExists version_file then
      match env.readJson version_file with
      | some (JValue.jobj fields) =>
        some (pyStr ((fields.lookup "MajorVersion").getD (JValue.jnum 0)) ++ "." ++
              pyStr ((fields.lookup "MinorVersion").getD (JValue.jnum 0)))
      | _ => Option.none
    else Option.none

/-- `EngineFinder.save_config` (engine_finder.py, lines 205-236): refuse when
the config directory is not writable, or the file exists and is not
writable; otherwise replace the stored mapping wholesale. -/
def save_config (env : FinderEnv) (st : FinderState)
    (engines_data : List (String × String)) : Bool × FinderState :=
  if !(env.fs.accessW (env.fs.dirname st.configFileName)) then
    (false, st)
  else if st.configFile.isSome && !(env.fs.accessW st.configFileName) then
    (false, st)
  else
    (true, { st with configFile := some engines_data })

/-- `EngineFinder.load_config` (engine_finder.py, lines 238-263): the stored
mapping, or the empty mapping when the file is absent. -/
def load_config (st : FinderState) : List (String × String) :=
  match st.configFile with
  | some data => data
  | Option.none => []

/-- Python `dict.__setitem__` on an association list with unique keys: an
existing key keeps its position and gets the new value, a new key is
appended. -/
def dictInsert (d : List (String × String)) (k v : String) : List (String × String) :=
  if d.any fun kv => kv.1 == k then
    d.map fun kv => if kv.1 == k then (k, v) else kv
  else d ++ [(k, v)]

/-- `EngineFinder._process_found_paths` (engine_finder.py, lines 334-354):
extract a version per path (dropping versionless candidates), normalise to
the installation root, and persist the mapping when non-empty (`save_config`
failure is ignored; `found_engines` is updated regardless). -/
def process_found_paths (env : FinderEnv) (st : FinderState) (paths : List String) :
    List (String × String) × FinderState :=
  let result := paths.foldl (fun acc path =>
    match extract_version_from_path env path with
    | some version =>
      let normalized_path :=
        if !(env.fs.pathExists (pathJoin path ["Engine"])) then
          env.fs.dirname (env.fs.dirname path)
        else path
      dictInsert acc version normalized_path
    | Option.none => acc) []
  if result.isEmpty then (result, st)
  else
    (result, { (save_config env st result).2 with found_engines := result })

/-- Python `set` accumulation in insertion order: append the members of `xs`
not already present. -/
def dedupAppend (acc : List String) (xs : List String) : List String :=
  xs.foldl (fun a x => if a.contains x then a else a ++ [x]) acc

/-- The fresh-scan tail of `find_all_engines` (engine_finder.py, lines
304-332): query the three sources in order with the `stop_on_first`
short-circuits, and return the empty mapping without touching anything when
no candidate was found. -/
def scanPhase (env : FinderEnv) (st : FinderState) (stop_on_first : Bool) :
    List (String × String) × FinderState :=
  let registry_paths := find_unreal_in_registry env
  if stop_on_first && !registry_paths.isEmpty then
    process_found_paths env st [registry_paths.headD ""]
  else
    let env_paths := find_unreal_in_env_vars env
    if stop_on_first && !env_paths.isEmpty then
      process_found_paths env st [env_paths.headD ""]
    else
      let standard_paths := find_unreal_in_standard_paths env
      if stop_on_first && !standard_paths.isEmpty then
        process_found_paths env st [standard_paths.headD ""]
      else
        let all_paths :=
          dedupAppend (dedupAppend (dedupAppend [] registry_paths) env_paths) standard_paths
        if all_paths.isEmpty then ([], st)
        else process_found_paths env st all_paths

/-- `EngineFinder.find_all_engines` (engine_finder.py, lines 265-332): unless
a rescan is forced, a non-empty config store is revalidated entry by entry
and the surviving subset returned when non-empty; otherwise the fresh scan
runs. -/
def find_all_engines (env : FinderEnv) (st : FinderState)
    (stop_on_first : Bool) (force_rescan : Bool) :
    List (String × String) × FinderState :=
  if !force_rescan && !(load_config st).isEmpty then
    let valid_engines := (load_config st).filter fun vp =>
      env.fs.pathExists vp.2 && is_valid_engine_path env.fs vp.2
    if !valid_engines.isEmpty then
      (valid_engines, { st with found_engines := valid_engines })
    else
      scanPhase env st stop_on_first
  else
    scanPhase env st stop_on_first

theorem save_config_true (env : FinderEnv) (st : FinderState)
    (C : List (String × String)) (h : (save_config env st C).1 = true) :
    (save_config env st C).2 = { st with configFile := some C } := by
  unfold save_config at h ⊢
  split at h
  · simp at h
  · split at h
    · simp at h
    · rename_i h1 h2
      rw [if_neg h1, if_neg h2]

/-- C5: when a mapping `C` has been persisted to the config store by a
successful save (as a successful fresh scan does), an immediately following
`find_all_engines` with `force_rescan = false` returns exactly `C` — for any
contents of the three scan sources — and leaves the stored config equal to
`C`, provided every path in `C` still exists and passes
`is_valid_engine_path` at reload time. -/
theorem config_roundtrip (env : FinderEnv) (st : FinderState)
    (C : List (String × String)) (sof : Bool)
    (hC : C ≠ [])
    (hsave : (save_config env st C).1 = true)
    (hvalid : ∀ vp ∈ C, env.fs.pathExists vp.2 = true ∧
      is_valid_engine_path env.fs vp.2 = true) :
    (find_all_engines env (save_config env st C).2 sof false).1 = C ∧
    (find_all_engines env (save_config env st C).2 sof false).2.configFile = some C := by
  rw [save_config_true env st C hsave]
  have hload : load_config { st with configFile := some C } = C := rfl
  have hfilter : (C.filter fun vp =>
      env.fs.pathExists vp.2 && is_valid_engine_path env.fs vp.2) = C := by
    rw [List.filter_eq_self]
    intro a ha
    have hva := hvalid a ha
    simp [hva.1, hva.2]
  have hCe : C.isEmpty = false := by
    cases C with
    | nil => exact absurd rfl hC
    | cons a l => rfl
  unfold find_all_engines
  simp only [hload, hfilter, hCe, Bool.not_false, Bool.and_self, if_true]
  simp

/-- A blank discovery environment around the permissive filesystem. -/
def envFind5 : FinderEnv := ⟨envAll, [], [], fun _ => [], "", fun _ => Option.none⟩

/-- A finder state with the default config-file name and no config file. -/
def stFind5 : FinderState := ⟨"unreal_engines_config.json", Option.none, []⟩

theorem config_roundtrip_witness :
    (find_all_engines envFind5
      (save_config envFind5 stFind5 [("5.3", "C:/UE_5.3")]).2 false false).1 =
      [("5.3", "C:/UE_5.3")] := by
  have h := config_roundtrip envFind5 stFind5 [("5.3", "C:/UE_5.3")] false
    (by decide) rfl (by decide)
  exact h.1

theorem scanPhase_empty (env : FinderEnv) (st : FinderState) (sof : Bool)
    (hreg : find_unreal_in_registry env = [])
    (henv2 : find_unreal_in_env_vars env = [])
    (hstd : find_unreal_in_standard_paths env = []) :
    scanPhase env st sof = ([], st) := by
  simp [scanPhase, hreg, henv2, hstd, dedupAppend]

/-- C6: if a discovery pass finds zero candidate paths from all three sources
(registry, environment variables, standard installation directories), then
`find_all_engines` leaves the config-store file completely unchanged (name
and contents), and whenever the fresh scan actually runs (a forced rescan, or
no cached entry survives revalidation) it returns the empty mapping. -/
theorem empty_scan_leaves_config_untouched (env : FinderEnv) (st : FinderState)
    (sof fr : Bool)
    (hreg : find_unreal_in_registry env = [])
    (henv2 : find_unreal_in_env_vars env = [])
    (hstd : find_unreal_in_standard_paths env = []) :
    (find_all_engines env st sof fr).2.configFile = st.configFile ∧
    (find_all_engines env st sof fr).2.configFileName = st.configFileName ∧
    (fr = true → (find_all_engines env st sof fr).1 = []) ∧
    (((load_config st).filter fun vp =>
        env.fs.pathExists vp.2 && is_valid_engine_path env.fs vp.2) = [] →
      (find_all_engines env st sof fr).1 = []) := by
  have hscan := scanPhase_empty env st sof hreg henv2 hstd
  unfold find_all_engines
  dsimp only
  split
  · split
    · rename_i hcond hvalid
      refine ⟨rfl, rfl, ?_, ?_⟩
      · intro hfr
        rw [hfr] at hcond
        simp at hcond
      · intro hfil
        rw [hfil] at hvalid
        simp at hvalid
    · rw [hscan]
      exact ⟨rfl, rfl, fun _ => rfl, fun _ => rfl⟩
  · rw [hscan]
    exact ⟨rfl, rfl, fun _ => rfl, fun _ => rfl⟩

/-- A filesystem where nothing exists and nothing is writable. -/
def envNone : FSEnv :=
  ⟨fun _ => false, fun _ => false, fun _ => false, fun s => s, fun _ => "", fun _ => false,
   fun _ => ""⟩

/-- A discovery environment whose raw candidates all fail validation, so all
three sources yield zero candidates. -/
def envFind6 : FinderEnv :=
  ⟨envNone, ["C:/reg"], ["UE_candidate"], fun _ => ["UE_5.3"], "h", fun _ => Option.none⟩

/-- A finder state holding a previously saved config mapping. -/
def stFind6 : FinderState := ⟨"cfg.json", some [("4.27", "C:/old")], []⟩

theorem empty_scan_witness :
    (find_all_engines envFind6 stFind6 false true).1 = [] ∧
    (find_all_engines envFind6 stFind6 false true).2.configFile =
      some [("4.27", "C:/old")] := by
  have h := empty_scan_leaves_config_untouched envFind6 stFind6 false true
    (by decide) (by decide) (by decide)
  exact ⟨h.2.2.1 rfl, h.1⟩

end UEPB
